import Mathlib

/-!
Verification development for the Content Idea Generator (`main.py`).

The Python source is shallowly embedded below.  Python strings are modelled
as Lean `String` (lists of characters); Python's default `str.strip`
whitespace set is modelled by its ASCII members; `str.splitlines` break
characters are modelled by their Unicode code points; `json.loads`
restricted to arrays of strings is modelled by an executable recursive
descent routine `parseJsonStrArray` (it fails exactly where the Python JSON
path of `extract_json_array` falls through to the line-based fallback:
non-array documents, arrays with non-string members, and malformed text).
The remote OpenAI chat endpoint is modelled as an oracle
`svc : Nat -> Except String String` giving the outcome of the i-th
completion request of one `generate_ideas` invocation; the number of remote
requests issued and the (prompt, temperature) pairs sent are returned
alongside the result so that call-count and parameter-passing properties
can be stated.
-/

namespace AIMiracles

/-- ASCII members of Python's default `str.strip` whitespace set. -/
def isPyWs (c : Char) : Bool :=
  c = ' ' || c = '\t' || c = '\n' || c = '\r' || c = '\x0b' || c = '\x0c'

/-- Model of Python `str.strip()`: drop leading and trailing whitespace. -/
def pyStrip (s : String) : String :=
  String.mk (((s.data.dropWhile isPyWs).reverse.dropWhile isPyWs).reverse)

/-- Line-break characters recognised by Python `str.splitlines`. -/
def isLineBreak (c : Char) : Bool :=
  c = '\n' || c = '\r' || c = '\x0b' || c = '\x0c' || c = '\x1c' ||
  c = '\x1d' || c = '\x1e' || c = '\x85' || c = '\u2028' || c = '\u2029'

/-- Split a character list at line-break characters.  A `"\r\n"` pair yields
an extra empty line compared with Python `splitlines`, but every caller
filters out blank lines, so the filtered results agree. -/
def splitLB : List Char → List (List Char)
  | [] => [[]]
  | c :: rest =>
    if isLineBreak c then [] :: splitLB rest
    else
      match splitLB rest with
      | [] => [[c]]
      | l :: ls => (c :: l) :: ls

/-- JSON whitespace (RFC 8259). -/
def isJsonWs (c : Char) : Bool :=
  c = ' ' || c = '\t' || c = '\n' || c = '\r'

def skipWs (cs : List Char) : List Char := cs.dropWhile isJsonWs

/-- Value of a hexadecimal digit character. -/
def hexVal (c : Char) : Option Nat :=
  if c.isDigit then some (c.toNat - '0'.toNat)
  else if 'a' ≤ c ∧ c ≤ 'f' then some (c.toNat - 'a'.toNat + 10)
  else if 'A' ≤ c ∧ c ≤ 'F' then some (c.toNat - 'A'.toNat + 10)
  else none

/-- Read four hexadecimal digits. -/
def hex4 : List Char → Option (Nat × List Char)
  | a :: b :: c :: d :: rest => do
    let x ← hexVal a
    let y ← hexVal b
    let z ← hexVal c
    let w ← hexVal d
    pure ((((x * 16 + y) * 16 + z) * 16 + w), rest)
  | _ => none

/-- Single-character JSON escapes. -/
def escChar (c : Char) : Option Char :=
  if c = '"' then some '"'
  else if c = '\\' then some '\\'
  else if c = '/' then some '/'
  else if c = 'b' then some '\x08'
  else if c = 'f' then some '\x0c'
  else if c = 'n' then some '\n'
  else if c = 'r' then some '\r'
  else if c = 't' then some '\t'
  else none

/-- Parse the body of a JSON string (the opening quote already consumed),
returning the decoded characters and the remaining input.  Surrogate pairs
are combined; lone surrogates are rejected. -/
def parseJString : Nat → List Char → Option (List Char × List Char)
  | 0, _ => none
  | _, [] => none
  | f + 1, c :: rest =>
    if c = '"' then some ([], rest)
    else if c = '\\' then
      match rest with
      | [] => none
      | e :: rest2 =>
        if e = 'u' then
          match hex4 rest2 with
          | none => none
          | some (hv, rest3) =>
            if 0xD800 ≤ hv ∧ hv < 0xDC00 then
              match rest3 with
              | '\\' :: 'u' :: rest4 =>
                match hex4 rest4 with
                | some (lv, rest5) =>
                  if 0xDC00 ≤ lv ∧ lv < 0xE000 then
                    (parseJString f rest5).map fun p =>
                      (Char.ofNat (0x10000 + (hv - 0xD800) * 0x400 + (lv - 0xDC00)) :: p.1, p.2)
                  else none
                | none => none
              | _ => none
            else if 0xDC00 ≤ hv ∧ hv < 0xE000 then none
            else (parseJString f rest3).map fun p => (Char.ofNat hv :: p.1, p.2)
        else
          match escChar e with
          | some ec => (parseJString f rest2).map fun p => (ec :: p.1, p.2)
          | none => none
    else if c.toNat < 0x20 then none
    else (parseJString f rest).map fun p => (c :: p.1, p.2)

/-- Parse the comma-separated string elements of a JSON array, positioned
just after the opening bracket (whitespace already skipped), up to and
including the closing bracket. -/
def parseElems : Nat → List Char → Option (List String × List Char)
  | 0, _ => none
  | f + 1, cs =>
    match cs with
    | '"' :: rest =>
      match parseJString (rest.length + 1) rest with
      | none => none
      | some (content, rest2) =>
        match skipWs rest2 with
        | ',' :: rest3 => (parseElems f (skipWs rest3)).map fun p => (String.mk content :: p.1, p.2)
        | ']' :: rest3 => some ([String.mk content], rest3)
        | _ => none
    | _ => none

/-- Model of `json.loads` specialised to the success case used by
`extract_json_array`: the whole input is a JSON array each of whose
elements is a string.  All other documents (objects, numbers, arrays with
non-string members, malformed text) yield `none`, exactly the situations
in which the Python code falls through to the line-based fallback. -/
def parseJsonStrArray (s : String) : Option (List String) :=
  match skipWs s.data with
  | '[' :: rest =>
    let r1 := skipWs rest
    match r1 with
    | ']' :: tail => if skipWs tail = [] then some [] else none
    | _ =>
      match parseElems (r1.length + 1) r1 with
      | some (arr, tail) => if skipWs tail = [] then some arr else none
      | none => none
  | _ => none

/-- Index of the last character satisfying `p`, mirroring `str.rindex`. -/
def findLastIdx (p : Char → Bool) (l : List Char) : Option Nat :=
  match l.reverse.findIdx? p with
  | some i => some (l.length - 1 - i)
  | none => none

/-- Characters consumed by the numeric-prefix loop of the fallback path:
`ln[i].isdigit() or ln[i] in ".) "`. -/
def numberingChar (c : Char) : Bool :=
  c.isDigit || c = '.' || c = ')' || c = ' '

/-- One iteration of the index scan
`while i < len(ln) and (ln[i].isdigit() or ln[i] in ".) "): i += 1`;
the loop runs at most `len(ln) - i` times, the structural fuel. -/
def scanNumberingAux (ln : List Char) : Nat → Nat → Nat
  | 0, i => i
  | f + 1, i =>
    if h : i < ln.length then
      if numberingChar (ln.get ⟨i, h⟩) then scanNumberingAux ln f (i + 1) else i
    else i

/-- The index reached by the numeric-prefix scan loop starting at `i`. -/
def scanNumbering (ln : List Char) (i : Nat) : Nat :=
  scanNumberingAux ln (ln.length - i) i

/-- Per-line cleaning of the fallback path of `extract_json_array`
(lines 72 to 83 of `main.py`): strip leading bullets, then drop the numeric
run, apply a final `strip`, and keep the line only if non-empty. -/
def cleanLine (ln : String) : Option String :=
  let l1 := ln.data.dropWhile (fun c => c = '-' || c = '•' || c = ' ')
  let l2 :=
    match l1 with
    | [] => l1
    | c :: _ =>
      if c.isDigit then (pyStrip (String.mk (l1.drop (scanNumbering l1 0)))).data
      else l1
  if l2 = [] then none else some (String.mk l2)

/-- Fallback line-based extraction of `extract_json_array`: split on line
breaks, strip each line, drop blanks, then clean each remaining line. -/
def fallbackLines (t : String) : List String :=
  let lines := ((splitLB t.data).map (fun l => pyStrip (String.mk l))).filter (fun s => s ≠ "")
  lines.filterMap cleanLine

/-- Embedding of `extract_json_array` (lines 52 to 84 of `main.py`). -/
def extract_json_array (text : String) : List String :=
  let t := pyStrip text
  let cs := t.data
  let jsonRes : Option (List String) :=
    match cs.findIdx? (fun c => c = '['), findLastIdx (fun c => c = ']') cs with
    | some s, some e =>
      match parseJsonStrArray (String.mk ((cs.drop s).take (e + 1 - s))) with
      | some arr => some ((arr.filter (fun i => i ≠ "" && pyStrip i ≠ "")).map pyStrip)
      | none => none
    | _, _ => none
  match jsonRes with
  | some l => l
  | none => fallbackLines t

/-- The key selection of `set_api_key_from_env_or_input`: a sidebar value
wins when non-empty (Python truthiness), else a non-empty environment
value, else the key stays unset. -/
def set_api_key_from_env_or_input (envKey : Option String) (inputKey : String) : Option String :=
  if inputKey ≠ "" then some inputKey
  else
    match envKey with
    | some k => if k ≠ "" then some k else none
    | none => none

/-- Python truthiness of `openai.api_key` as tested by `call_openai_chat`:
`None` and the empty string are falsy. -/
def keyTruthy : Option String → Bool
  | none => false
  | some k => k ≠ ""

instance {ε α : Type} [DecidableEq ε] [DecidableEq α] : DecidableEq (Except ε α) := fun
  | Except.error a, Except.error b =>
    if h : a = b then isTrue (by rw [h]) else isFalse (fun he => by cases he; exact h rfl)
  | Except.error _, Except.ok _ => isFalse (fun he => by cases he)
  | Except.ok _, Except.error _ => isFalse (fun he => by cases he)
  | Except.ok a, Except.ok b =>
    if h : a = b then isTrue (by rw [h]) else isFalse (fun he => by cases he; exact h rfl)

/-- Outcome of one `call_openai_chat` invocation: the returned text or the
raised error, the number of remote requests issued, and the
(user prompt, temperature) pair of each request sent. -/
structure CallResult where
  out : Except String String
  remoteCalls : Nat
  sent : List (String × Rat)
deriving DecidableEq, Repr

/-- Embedding of `call_openai_chat` (lines 87 to 107 of `main.py`):
raise a configuration error before any remote request when the key is
unset, otherwise issue exactly one remote request whose outcome is given
by the service oracle. -/
def call_openai_chat (apiKey : Option String) (svcOutcome : Except String String)
    (prompt : String) (temperature : Rat) : CallResult :=
  if keyTruthy apiKey then ⟨svcOutcome, 1, [(prompt, temperature)]⟩
  else ⟨Except.error "OpenAI API key is not set.", 0, []⟩

/-- The primary prompt built by `generate_ideas` (lines 112 to 119). -/
def primaryPrompt (topic : String) (n : Nat) (style tone : String) : String :=
  "Topic: " ++ topic ++ "\n" ++
  "Number of ideas: " ++ Nat.repr n ++ "\n" ++
  "Style: " ++ style ++ "\n" ++
  "Tone: " ++ tone ++ "\n" ++
  "Instructions: Return ONLY a JSON array of strings. Example: [\"Idea 1\", \"Idea 2\"]\n" ++
  "Each idea should be concise (preferably < 140 characters), actionable, and unique."

/-- The reinforced prompt of the second attempt (lines 130 to 133). -/
def reinforcedPrompt (topic : String) (n : Nat) (style tone : String) : String :=
  "Topic: " ++ topic ++ "\n" ++
  "Number of ideas: " ++ Nat.repr n ++ "\n" ++
  "Style: " ++ style ++ "\n" ++
  "Tone: " ++ tone ++ "\n" ++
  "Return ONLY a JSON array of exactly the requested number of ideas (strings)."

/-- One pass of the final `while len(result) < n` padding loop of
`generate_ideas`, which runs exactly `n - len(result)` times, each
iteration appending a copy of the current last element, or the placeholder
`topic ++ " - idea " ++ repr (len+1)` when the list is empty. -/
def padAux (topic : String) : Nat → List String → List String
  | 0, result => result
  | m + 1, result =>
    match result.getLast? with
    | some last => padAux topic m (result ++ [last])
    | none => padAux topic m (result ++ [topic ++ " - idea " ++ Nat.repr (result.length + 1)])

/-- The final fallback of `generate_ideas` (lines 139 to 143). -/
def padIdeas (topic : String) (n : Nat) (ideas : List String) : List String :=
  padAux topic (n - ideas.length) ideas

/-- Outcome of one `generate_ideas` invocation. -/
structure GenOutcome where
  result : Except String (List String)
  remoteCalls : Nat
  sent : List (String × Rat)
deriving DecidableEq, Repr

/-- Embedding of `generate_ideas` (lines 110 to 143 of `main.py`).
`svc i` is the outcome the remote service would produce for the i-th
remote request of this invocation. -/
def generate_ideas (apiKey : Option String) (svc : Nat → Except String String)
    (topic : String) (n : Nat) (style tone : String) (temperature : Rat) : GenOutcome :=
  let c1 := call_openai_chat apiKey (svc 0) (primaryPrompt topic n style tone) temperature
  match c1.out with
  | Except.error e => ⟨Except.error e, c1.remoteCalls, c1.sent⟩
  | Except.ok raw =>
    let ideas := extract_json_array raw
    if n ≤ ideas.length then ⟨Except.ok (ideas.take n), c1.remoteCalls, c1.sent⟩
    else
      let c2 := call_openai_chat apiKey (svc 1) (reinforcedPrompt topic n style tone) temperature
      match c2.out with
      | Except.error e => ⟨Except.error e, c1.remoteCalls + c2.remoteCalls, c1.sent ++ c2.sent⟩
      | Except.ok raw2 =>
        let ideas2 := extract_json_array raw2
        if n ≤ ideas2.length then
          ⟨Except.ok (ideas2.take n), c1.remoteCalls + c2.remoteCalls, c1.sent ++ c2.sent⟩
        else
          ⟨Except.ok (padIdeas topic n ideas), c1.remoteCalls + c2.remoteCalls, c1.sent ++ c2.sent⟩

/-- The per-session state of `main`: the accumulated idea list and the
last successfully used topic. -/
structure SessionState where
  ideas : List String
  topic : String
deriving DecidableEq, Repr

/-- A button press together with the widget values current at that moment. -/
inductive UIEvent where
  | genClick (topicBox : String) (n : Nat) (style tone : String) (temperature : Rat)
  | genMoreClick (n : Nat) (style tone : String) (temperature : Rat)
deriving DecidableEq, Repr

/-- Embedding of the two generation button handlers of `main`
(lines 180 to 205 of `main.py`).  Returns the new session state and the
`generate_ideas` outcome when a generation was invoked.  "Generate Ideas"
replaces the accumulated list and records the topic; "Generate More"
requires a previously recorded topic, calls `generate_ideas` with that
topic and the current widget values, and appends the result.  A raised
generation error leaves the session state unchanged. -/
def uiStep (apiKey : Option String) (svc : Nat → Except String String)
    (st : SessionState) : UIEvent → SessionState × Option GenOutcome
  | UIEvent.genClick topicBox n style tone temperature =>
    if topicBox = "" then (st, none)
    else
      let o := generate_ideas apiKey svc topicBox n style tone temperature
      match o.result with
      | Except.ok ideas => (⟨ideas, topicBox⟩, some o)
      | Except.error _ => (st, some o)
  | UIEvent.genMoreClick n style tone temperature =>
    if st.topic = "" then (st, none)
    else
      let o := generate_ideas apiKey svc st.topic n style tone temperature
      match o.result with
      | Except.ok more => (⟨st.ideas ++ more, st.topic⟩, some o)
      | Except.error _ => (st, some o)

/-- Python `it.replace('"', '""')`: double every double-quote character. -/
def escQuotes (s : String) : String :=
  String.mk (s.data.flatMap fun c => if c = '"' then ['"', '"'] else [c])

/-- One CSV data row written by the export loop (lines 222 to 225 of
`main.py`): `f"\x7bidx\x7d,\"\x7bsafe\x7d\"\n"`. -/
def csvRow (idx : Nat) (it : String) : String :=
  Nat.repr idx ++ ",\"" ++ escQuotes it ++ "\"\n"

/-- The full CSV export: header row then one row per idea, 1-based. -/
def csvExport (ideas : List String) : String :=
  "index,idea\n" ++ String.join (ideas.enum.map fun p => csvRow (p.1 + 1) p.2)

/-- Standard CSV (RFC 4180) scan of a quoted field body: the opening quote
is already consumed; a doubled quote is an escaped quote, a lone quote
closes the field.  Returns the decoded content and the remaining input. -/
def csvUnquote : List Char → Option (List Char × List Char)
  | [] => none
  | c :: rest =>
    if c = '"' then
      match rest with
      | c2 :: rest2 =>
        if c2 = '"' then (csvUnquote rest2).map fun p => ('"' :: p.1, p.2)
        else some ([], rest)
      | [] => some ([], [])
    else (csvUnquote rest).map fun p => (c :: p.1, p.2)

/-- Standard CSV decoding of one exported row terminated by a newline: an
unquoted first field up to the comma, then a quoted second field.  Returns
both decoded fields. -/
def csvDecodeRow (s : String) : Option (String × String) :=
  let cs := s.data
  let idxField := cs.takeWhile fun c => c ≠ ','
  match cs.dropWhile (fun c => c ≠ ',') with
  | ',' :: '"' :: rest =>
    match csvUnquote rest with
    | some (content, ['\n']) => some (String.mk idxField, String.mk content)
    | _ => none
  | _ => none

/-! ## Helper lemmas -/

theorem extract_of_parse (text : String) (arr : List String) (s e : Nat)
    (hs : (pyStrip text).data.findIdx? (fun c => c = '[') = some s)
    (he : findLastIdx (fun c => c = ']') (pyStrip text).data = some e)
    (hp : parseJsonStrArray (String.mk (((pyStrip text).data.drop s).take (e + 1 - s))) = some arr) :
    extract_json_array text = (arr.filter (fun i => i ≠ "" && pyStrip i ≠ "")).map pyStrip := by
  unfold extract_json_array
  simp only [hs, he, hp]

theorem filter_strip_comm (arr : List String) :
    (arr.filter (fun i => i ≠ "" && pyStrip i ≠ "")).map pyStrip
      = (arr.map pyStrip).filter (fun x => x ≠ "") := by
  induction arr with
  | nil => rfl
  | cons a l ih =>
    simp only [List.filter_cons, List.map_cons]
    by_cases h1 : a = ""
    · subst h1
      have h0 : pyStrip "" = "" := rfl
      simpa [h0] using ih
    · by_cases h2 : pyStrip a = ""
      · simpa [h1, h2] using ih
      · simpa [h1, h2] using ih

/-! ## Claim C2 -/

/-- C2: for every input text whose bracket-delimited candidate (first `[`
through last `]` of the stripped text) decodes as a JSON array of strings,
`extract_json_array` returns exactly those element strings, each trimmed,
with elements that are empty after trimming removed, in order. -/
theorem extract_json_wellformed (text : String) (arr : List String) (s e : Nat)
    (hs : (pyStrip text).data.findIdx? (fun c => c = '[') = some s)
    (he : findLastIdx (fun c => c = ']') (pyStrip text).data = some e)
    (hp : parseJsonStrArray (String.mk (((pyStrip text).data.drop s).take (e + 1 - s))) = some arr) :
    extract_json_array text = (arr.map pyStrip).filter (fun x => x ≠ "") := by
  rw [extract_of_parse text arr s e hs he hp, filter_strip_comm]

/-- Witness for C2, the worked example of the specification. -/
theorem extract_json_wellformed_witness :
    extract_json_array "Here you go: [\"Idea A\", \" Idea B \", \"\"]" = ["Idea A", "Idea B"] := by
  have h := extract_json_wellformed "Here you go: [\"Idea A\", \" Idea B \", \"\"]"
    ["Idea A", " Idea B ", ""] 13 38 (by decide) (by decide) (by decide)
  rw [h]
  decide

/-! ## Claim C3 -/

/-- C3: `extract_json_array` is a total function — on every input string it
returns a list without raising — and on the empty string it returns the
empty list. -/
theorem extract_total_and_empty :
    (∀ s : String, ∃ l : List String, extract_json_array s = l) ∧
      extract_json_array "" = [] :=
  ⟨fun s => ⟨extract_json_array s, rfl⟩, by decide⟩

/-! ## Claim C6 -/

/-- Per-line transformation of the fallback path as described by the
(amended) claim: strip a leading run of the characters `-`, `•`, space;
if the line then starts with a digit, drop the leading run of characters
that are digits or `.`, `)`, space and trim the remainder; keep the line
only if it is non-empty. -/
def cleanLineSpec (ln : String) : Option String :=
  let l1 := ln.data.dropWhile (fun c => c = '-' || c = '•' || c = ' ')
  let l2 :=
    match l1 with
    | [] => l1
    | c :: _ =>
      if c.isDigit then (pyStrip (String.mk (l1.dropWhile numberingChar))).data
      else l1
  if l2 = [] then none else some (String.mk l2)

/-- Modelled from the claim text of C6, which omits the final trim: strip
the bullet run, then (for digit-initial lines) the numbering run, and keep
the line exactly as it stands if non-empty. -/
def cleanLineClaimed (ln : String) : Option String :=
  let l1 := ln.data.dropWhile (fun c => c = '-' || c = '•' || c = ' ')
  let l2 :=
    match l1 with
    | [] => l1
    | c :: _ =>
      if c.isDigit then l1.dropWhile numberingChar
      else l1
  if l2 = [] then none else some (String.mk l2)

/-- Line-based extraction as claim C6 describes it. -/
def fallbackClaimed (t : String) : List String :=
  (((splitLB t.data).map (fun l => pyStrip (String.mk l))).filter (fun s => s ≠ "")).filterMap
    cleanLineClaimed

theorem scanNumberingAux_drop (ln : List Char) :
    ∀ f i, ln.length - i ≤ f →
      ln.drop (scanNumberingAux ln f i) = (ln.drop i).dropWhile numberingChar := by
  intro f
  induction f with
  | zero =>
    intro i hf
    have hle : ln.length ≤ i := by omega
    unfold scanNumberingAux
    rw [List.drop_eq_nil_of_le hle]
    rfl
  | succ f ih =>
    intro i hf
    unfold scanNumberingAux
    split
    · rename_i h
      split
      · rename_i hc
        rw [ih (i + 1) (by omega), List.drop_eq_getElem_cons h, List.dropWhile_cons]
        simp only [List.get_eq_getElem] at hc
        simp [hc]
      · rename_i hc
        rw [List.drop_eq_getElem_cons h, List.dropWhile_cons]
        simp only [List.get_eq_getElem] at hc
        simp [hc]
    · rename_i h
      have hle : ln.length ≤ i := Nat.le_of_not_lt h
      rw [List.drop_eq_nil_of_le hle]
      rfl

theorem scanNumbering_drop (ln : List Char) (i : Nat) :
    ln.drop (scanNumbering ln i) = (ln.drop i).dropWhile numberingChar :=
  scanNumberingAux_drop ln (ln.length - i) i (Nat.le_refl _)

theorem cleanLine_eq_spec (ln : String) : cleanLine ln = cleanLineSpec ln := by
  have h : ∀ l : List Char, l.drop (scanNumbering l 0) = l.dropWhile numberingChar := by
    intro l
    simpa using scanNumbering_drop l 0
  simp only [cleanLine, cleanLineSpec, h]

/-- C6 (amended): on input whose stripped text contains no `[` — in
particular all plain bulleted or numbered text — `extract_json_array`
takes the fallback path and transforms each stripped non-blank line by
removing a leading run of `-`, `•`, space, then, if the line still starts
with a digit, removing the leading run of characters that are digits or
`.`, `)`, space and trimming surrounding whitespace, keeping the line only
if it is non-empty afterwards. -/
theorem extract_fallback_clean (text : String)
    (hnb : (pyStrip text).data.findIdx? (fun c => c = '[') = none) :
    extract_json_array text =
      (((splitLB (pyStrip text).data).map (fun l => pyStrip (String.mk l))).filter
        (fun s => s ≠ "")).filterMap cleanLineSpec := by
  unfold extract_json_array
  simp only [hnb]
  unfold fallbackLines
  have h : cleanLine = cleanLineSpec := funext cleanLine_eq_spec
  rw [h]

/-- Witness for C6, the worked example of the specification. -/
theorem extract_fallback_clean_witness :
    extract_json_array "1. Write a post\n- Record a video\n• Share a story"
      = ["Write a post", "Record a video", "Share a story"] := by
  have h := extract_fallback_clean "1. Write a post\n- Record a video\n• Share a story"
    (by decide)
  rw [h]
  decide

/-- Counterexample to C6 as stated: the code applies a final `strip` after
removing the numbering run, which the claim omits.  On the line
`"1.\thello"` the claimed transformation keeps `"\thello"`, while the code
returns `"hello"`. -/
theorem extract_fallback_counterexample :
    extract_json_array "1.\thello" = ["hello"] ∧
      fallbackClaimed "1.\thello" = ["\thello"] ∧
      ("hello" : String) ≠ "\thello" := by
  refine ⟨by decide, by decide, by decide⟩

/-! ## Claim C4 -/

theorem call_remoteCalls_le_one (apiKey : Option String) (o : Except String String)
    (p : String) (t : Rat) : (call_openai_chat apiKey o p t).remoteCalls ≤ 1 := by
  unfold call_openai_chat
  split <;> simp

/-- C4: one invocation of `generate_ideas` issues at most two remote
requests, whatever the service returns (including failures). -/
theorem generate_at_most_two_calls (apiKey : Option String)
    (svc : Nat → Except String String) (topic : String) (n : Nat)
    (style tone : String) (temperature : Rat) :
    (generate_ideas apiKey svc topic n style tone temperature).remoteCalls ≤ 2 := by
  have h1 := call_remoteCalls_le_one apiKey (svc 0) (primaryPrompt topic n style tone) temperature
  have h2 := call_remoteCalls_le_one apiKey (svc 1) (reinforcedPrompt topic n style tone) temperature
  unfold generate_ideas
  cases hout : (call_openai_chat apiKey (svc 0) (primaryPrompt topic n style tone)
      temperature).out with
  | error e => simp only [hout]; omega
  | ok raw =>
    simp only [hout]
    by_cases hn : n ≤ (extract_json_array raw).length
    · simp only [if_pos hn]
      omega
    · simp only [if_neg hn]
      cases hout2 : (call_openai_chat apiKey (svc 1) (reinforcedPrompt topic n style tone)
          temperature).out with
      | error e => simp only [hout2]; omega
      | ok raw2 =>
        simp only [hout2]
        by_cases hn2 : n ≤ (extract_json_array raw2).length
        · simp only [if_pos hn2]
          omega
        · simp only [if_neg hn2]
          omega

/-! ## Claim C5 -/

/-- C5 (amended): when the service's first response is a valid JSON array
of exactly `n` distinct strings, each non-empty and free of surrounding
whitespace, `generate_ideas` returns those `n` strings unchanged and
issues exactly one remote request. -/
theorem generate_exact_n (apiKey : Option String) (svc : Nat → Except String String)
    (topic : String) (n : Nat) (style tone : String) (temperature : Rat)
    (raw : String) (arr : List String) (s e : Nat)
    (hk : keyTruthy apiKey = true)
    (h0 : svc 0 = Except.ok raw)
    (hs : (pyStrip raw).data.findIdx? (fun c => c = '[') = some s)
    (he : findLastIdx (fun c => c = ']') (pyStrip raw).data = some e)
    (hp : parseJsonStrArray (String.mk (((pyStrip raw).data.drop s).take (e + 1 - s))) = some arr)
    (hlen : arr.length = n)
    (_hnd : arr.Nodup)
    (hclean : ∀ x ∈ arr, pyStrip x = x ∧ x ≠ "") :
    generate_ideas apiKey svc topic n style tone temperature =
      ⟨Except.ok arr, 1, [(primaryPrompt topic n style tone, temperature)]⟩ := by
  have hex : extract_json_array raw = arr := by
    rw [extract_of_parse raw arr s e hs he hp, filter_strip_comm]
    have hmap : arr.map pyStrip = arr := by
      have := List.map_congr_left (l := arr) (f := pyStrip) (g := id)
        (fun x hx => (hclean x hx).1)
      simpa using this
    rw [hmap]
    rw [List.filter_eq_self.mpr]
    intro a ha
    simpa using (hclean a ha).2
  subst hlen
  simp only [generate_ideas, call_openai_chat, hk, if_true, h0, hex, le_refl, if_pos,
    List.take_length]

/-- Witness for C5 (amended). -/
theorem generate_exact_n_witness :
    generate_ideas (some "x") (fun _ => Except.ok "[\"a\", \"b\"]") "t" 2 "General" "Practical" 1 =
      ⟨Except.ok ["a", "b"], 1, [(primaryPrompt "t" 2 "General" "Practical", 1)]⟩ :=
  generate_exact_n (some "x") (fun _ => Except.ok "[\"a\", \"b\"]") "t" 2 "General" "Practical" 1
    "[\"a\", \"b\"]" ["a", "b"] 0 9 (by decide) rfl (by decide) (by decide) (by decide)
    (by decide) (by decide) (by decide)

/-- Counterexample to C5 as stated: the service returns a valid JSON array
of exactly one distinct string, `" a "`, yet `generate_ideas` does not
return that string unchanged — the JSON path trims every element. -/
theorem generate_exact_n_counterexample :
    (generate_ideas (some "x") (fun _ => Except.ok "[\" a \"]") "t" 1 "General" "Practical"
        1).result = Except.ok ["a"] ∧
      (["a"] : List String) ≠ [" a "] :=
  ⟨by decide, by decide⟩

/-! ## Claim C8 -/

/-- C8: with neither an environment credential nor a sidebar override
(both absent or empty), a generation call fails immediately with the
configuration error and no remote request is attempted. -/
theorem missing_key_no_call (envKey : Option String) (svc : Nat → Except String String)
    (topic : String) (n : Nat) (style tone : String) (temperature : Rat)
    (henv : envKey = none ∨ envKey = some "") :
    generate_ideas (set_api_key_from_env_or_input envKey "") svc topic n style tone temperature =
      ⟨Except.error "OpenAI API key is not set.", 0, []⟩ := by
  have hkey : set_api_key_from_env_or_input envKey "" = none := by
    rcases henv with h | h <;> subst h <;> rfl
  rw [hkey]
  rfl

/-- Witness for C8. -/
theorem missing_key_no_call_witness :
    generate_ideas (set_api_key_from_env_or_input none "") (fun _ => Except.ok "[\"a\"]")
        "t" 1 "General" "Practical" 1 =
      ⟨Except.error "OpenAI API key is not set.", 0, []⟩ :=
  missing_key_no_call none (fun _ => Except.ok "[\"a\"]") "t" 1 "General" "Practical" 1
    (Or.inl rfl)

/-! ## Padding lemmas (claims C1 and C10) -/

theorem padAux_concat (topic : String) :
    ∀ (m : Nat) (l : List String) (a : String),
      padAux topic m (l ++ [a]) = (l ++ [a]) ++ List.replicate m a := by
  intro m
  induction m with
  | zero => intro l a; simp [padAux]
  | succ m ih =>
    intro l a
    unfold padAux
    rw [List.getLast?_concat]
    simp only
    rw [ih (l ++ [a]) a]
    simp [List.replicate_succ, List.append_assoc]

theorem padIdeas_spec (topic : String) (n : Nat) (ideas : List String) :
    padIdeas topic n ideas =
      ideas ++ List.replicate (n - ideas.length)
        (ideas.getLast?.getD (topic ++ " - idea 1")) := by
  rcases List.eq_nil_or_concat ideas with h | ⟨l, a, h⟩
  · subst h
    unfold padIdeas
    simp only [List.length_nil, Nat.sub_zero, List.nil_append, List.getLast?_nil,
      Option.getD_none]
    cases n with
    | zero => rfl
    | succ m =>
      unfold padAux
      simp only [List.getLast?_nil, List.length_nil, List.nil_append]
      have hone : topic ++ " - idea " ++ Nat.repr (0 + 1) = topic ++ " - idea 1" := by
        have h1 : Nat.repr (0 + 1) = "1" := by decide
        rw [h1, String.append_assoc]
        rfl
      rw [hone]
      have hc := padAux_concat topic m [] (topic ++ " - idea 1")
      simpa [List.replicate_succ] using hc
  · subst h
    unfold padIdeas
    simp only [List.concat_eq_append]
    rw [padAux_concat topic _ l a]
    simp [List.getLast?_concat]

/-! ## Claim C10 -/

/-- C10: when the first call parses to `k` ideas with `1 ≤ k < n` and the
second call also parses to fewer than `n`, `generate_ideas` returns the
first call's ideas followed by `n - k` copies of their last element; the
second call's parsed ideas are not used at all (the result depends only on
`raw1`). -/
theorem generate_pad_duplicates_last (apiKey : Option String)
    (svc : Nat → Except String String) (topic : String) (n : Nat)
    (style tone : String) (temperature : Rat) (raw1 raw2 : String)
    (l : List String) (a : String)
    (hk : keyTruthy apiKey = true)
    (h0 : svc 0 = Except.ok raw1)
    (h1 : svc 1 = Except.ok raw2)
    (hex1 : extract_json_array raw1 = l ++ [a])
    (hlt1 : (l ++ [a]).length < n)
    (hlt2 : (extract_json_array raw2).length < n) :
    generate_ideas apiKey svc topic n style tone temperature =
      ⟨Except.ok ((l ++ [a]) ++ List.replicate (n - (l ++ [a]).length) a), 2,
        [(primaryPrompt topic n style tone, temperature),
         (reinforcedPrompt topic n style tone, temperature)]⟩ := by
  simp only [generate_ideas, call_openai_chat, hk, if_true, h0, h1, hex1]
  rw [if_neg (Nat.not_le.mpr hlt1), if_neg (Nat.not_le.mpr hlt2)]
  unfold padIdeas
  rw [padAux_concat topic _ l a]
  simp

/-- Witness for C10. -/
theorem generate_pad_duplicates_last_witness :
    generate_ideas (some "x")
        (fun i => if i = 0 then Except.ok "[\"a\", \"b\"]" else Except.ok "[\"c\"]")
        "t" 4 "General" "Practical" 1 =
      ⟨Except.ok ((["a"] ++ ["b"]) ++ List.replicate (4 - (["a"] ++ ["b"]).length) "b"), 2,
        [(primaryPrompt "t" 4 "General" "Practical", 1),
         (reinforcedPrompt "t" 4 "General" "Practical", 1)]⟩ :=
  generate_pad_duplicates_last (some "x")
    (fun i => if i = 0 then Except.ok "[\"a\", \"b\"]" else Except.ok "[\"c\"]")
    "t" 4 "General" "Practical" 1 "[\"a\", \"b\"]" "[\"c\"]" ["a"] "b"
    (by decide) rfl rfl (by decide) (by decide) (by decide)

/-! ## Claim C1 -/

/-- Counterexample to C1 as stated: topic `"t"`, `n = 2`; the first call
parses to the single real idea `"a"`, the second call parses to no ideas,
so `k = 1` real idea was collected and the claim predicts the result
`["a", "t - idea 2"]`.  The code instead pads by duplicating the last
available idea, returning `["a", "a"]`. -/
theorem generate_pad_counterexample :
    (generate_ideas (some "x")
        (fun i => if i = 0 then Except.ok "[\"a\"]" else Except.ok "[]")
        "t" 2 "General" "Practical" 1).result = Except.ok ["a", "a"] ∧
      (["a", "a"] : List String) ≠ ["a", "t - idea 2"] :=
  ⟨by decide, by decide⟩

/-- C1 (amended): if both remote calls succeed but each parses to fewer
than `n` ideas, `generate_ideas` returns a list of length exactly `n`
consisting of the first call's parsed ideas (the second call's ideas are
discarded) followed by copies of a single filler element: the first call's
last idea when it produced at least one, and the placeholder
`topic ++ " - idea 1"` when it produced none. -/
theorem generate_pad_total (apiKey : Option String)
    (svc : Nat → Except String String) (topic : String) (n : Nat)
    (style tone : String) (temperature : Rat) (raw1 raw2 : String)
    (hk : keyTruthy apiKey = true)
    (h0 : svc 0 = Except.ok raw1)
    (h1 : svc 1 = Except.ok raw2)
    (hlt1 : (extract_json_array raw1).length < n)
    (hlt2 : (extract_json_array raw2).length < n) :
    (generate_ideas apiKey svc topic n style tone temperature).result =
        Except.ok (extract_json_array raw1 ++
          List.replicate (n - (extract_json_array raw1).length)
            ((extract_json_array raw1).getLast?.getD (topic ++ " - idea 1"))) ∧
      (extract_json_array raw1 ++
          List.replicate (n - (extract_json_array raw1).length)
            ((extract_json_array raw1).getLast?.getD (topic ++ " - idea 1"))).length = n := by
  constructor
  · simp only [generate_ideas, call_openai_chat, hk, if_true, h0, h1]
    rw [if_neg (Nat.not_le.mpr hlt1), if_neg (Nat.not_le.mpr hlt2)]
    simp only [padIdeas_spec]
  · simp only [List.length_append, List.length_replicate]
    omega

/-- Witness for C1 (amended). -/
theorem generate_pad_total_witness :
    (generate_ideas (some "x")
        (fun i => if i = 0 then Except.ok "[\"a\"]" else Except.ok "[]")
        "t" 3 "General" "Practical" 1).result =
        Except.ok (extract_json_array "[\"a\"]" ++
          List.replicate (3 - (extract_json_array "[\"a\"]").length)
            ((extract_json_array "[\"a\"]").getLast?.getD ("t" ++ " - idea 1"))) ∧
      (extract_json_array "[\"a\"]" ++
          List.replicate (3 - (extract_json_array "[\"a\"]").length)
            ((extract_json_array "[\"a\"]").getLast?.getD ("t" ++ " - idea 1"))).length = 3 :=
  generate_pad_total (some "x")
    (fun i => if i = 0 then Except.ok "[\"a\"]" else Except.ok "[]")
    "t" 3 "General" "Practical" 1 "[\"a\"]" "[]"
    (by decide) rfl rfl (by decide) (by decide)

/-! ## Claim C7 -/

/-- C7 (amended): "Generate More" with a previously recorded topic invokes
the same `generate_ideas` operation with the previously used topic and the
widget values current at the moment of the click (count, style, tone,
temperature), and on success appends the returned sequence to the
session's accumulated list, leaving the stored topic unchanged. -/
theorem genMore_appends (apiKey : Option String) (svc : Nat → Except String String)
    (st : SessionState) (n : Nat) (style tone : String) (temperature : Rat)
    (more : List String)
    (ht : st.topic ≠ "")
    (hok : (generate_ideas apiKey svc st.topic n style tone temperature).result
      = Except.ok more) :
    uiStep apiKey svc st (UIEvent.genMoreClick n style tone temperature) =
      (⟨st.ideas ++ more, st.topic⟩,
        some (generate_ideas apiKey svc st.topic n style tone temperature)) := by
  simp only [uiStep]
  rw [if_neg ht]
  simp only [hok]

/-- Witness for C7 (amended). -/
theorem genMore_appends_witness :
    uiStep (some "x") (fun _ => Except.ok "[\"a\"]") ⟨["z"], "t"⟩
        (UIEvent.genMoreClick 1 "Listicle" "Practical" 1) =
      (⟨["z"] ++ ["a"], "t"⟩,
        some (generate_ideas (some "x") (fun _ => Except.ok "[\"a\"]") "t" 1 "Listicle"
          "Practical" 1)) :=
  genMore_appends (some "x") (fun _ => Except.ok "[\"a\"]") ⟨["z"], "t"⟩ 1 "Listicle"
    "Practical" 1 ["a"] (by decide) (by decide)

set_option maxRecDepth 8000 in
/-- Counterexample to C7 as stated: a two-click trace in which the user
changes the style widget from "General" to "Listicle" between "Generate
Ideas" and "Generate More".  The second invocation sends the prompt built
from the current widget style, not from the style used by the prior
generation, so "Generate More" does not reuse the previously used
style/tone/temperature; only the topic is reused (and the result is indeed
appended). -/
theorem genMore_counterexample :
    uiStep (some "x") (fun _ => Except.ok "[\"a\"]") ⟨[], ""⟩
        (UIEvent.genClick "t" 1 "General" "Practical" 1) =
      (⟨["a"], "t"⟩,
        some ⟨Except.ok ["a"], 1, [(primaryPrompt "t" 1 "General" "Practical", 1)]⟩) ∧
      uiStep (some "x") (fun _ => Except.ok "[\"a\"]") ⟨["a"], "t"⟩
          (UIEvent.genMoreClick 1 "Listicle" "Practical" 1) =
        (⟨["a", "a"], "t"⟩,
          some ⟨Except.ok ["a"], 1, [(primaryPrompt "t" 1 "Listicle" "Practical", 1)]⟩) ∧
      primaryPrompt "t" 1 "Listicle" "Practical" ≠ primaryPrompt "t" 1 "General" "Practical" :=
  ⟨by decide, by decide, by decide⟩

/-! ## Claim C9 -/

theorem digitChar_isDigit : ∀ k, k < 10 → (Nat.digitChar k).isDigit = true := by decide

theorem toDigitsCore_digits :
    ∀ (fuel n : Nat) (ds : List Char), (∀ c ∈ ds, c.isDigit = true) →
      ∀ c ∈ Nat.toDigitsCore 10 fuel n ds, c.isDigit = true := by
  intro fuel
  induction fuel with
  | zero =>
    intro n ds h c hc
    simp only [Nat.toDigitsCore] at hc
    exact h c hc
  | succ f ih =>
    intro n ds h c hc
    have hd : (Nat.digitChar (n % 10)).isDigit = true :=
      digitChar_isDigit _ (Nat.mod_lt _ (by decide))
    simp only [Nat.toDigitsCore] at hc
    split at hc
    · rcases List.mem_cons.mp hc with h1 | h1
      · rw [h1]; exact hd
      · exact h c h1
    · refine ih (n / 10) (Nat.digitChar (n % 10) :: ds) ?_ c hc
      intro c2 hc2
      rcases List.mem_cons.mp hc2 with h1 | h1
      · rw [h1]; exact hd
      · exact h c2 h1

theorem repr_all_digits (n : Nat) : ∀ c ∈ (Nat.repr n).data, c.isDigit = true := by
  intro c hc
  have hdata : (Nat.repr n).data = Nat.toDigitsCore 10 (n + 1) n [] := rfl
  rw [hdata] at hc
  exact toDigitsCore_digits (n + 1) n [] (by simp) c hc

theorem takeWhile_append_all {p : Char → Bool} :
    ∀ l1 l2 : List Char, (∀ c ∈ l1, p c = true) →
      (l1 ++ l2).takeWhile p = l1 ++ l2.takeWhile p := by
  intro l1
  induction l1 with
  | nil => simp
  | cons c cs ih =>
    intro l2 h
    simp only [List.cons_append, List.takeWhile_cons]
    rw [h c (by simp)]
    simp only [if_true]
    rw [ih l2 fun x hx => h x (by simp [hx])]

theorem dropWhile_append_all {p : Char → Bool} :
    ∀ l1 l2 : List Char, (∀ c ∈ l1, p c = true) →
      (l1 ++ l2).dropWhile p = l2.dropWhile p := by
  intro l1
  induction l1 with
  | nil => simp
  | cons c cs ih =>
    intro l2 h
    simp only [List.cons_append, List.dropWhile_cons]
    rw [h c (by simp)]
    simp only [if_true]
    exact ih l2 fun x hx => h x (by simp [hx])

theorem csvUnquote_escQuotes (it : List Char) :
    csvUnquote ((it.flatMap fun c => if c = '"' then ['"', '"'] else [c])
        ++ '"' :: '\n' :: []) = some (it, ['\n']) := by
  induction it with
  | nil => rfl
  | cons c cs ih =>
    by_cases h : c = '"'
    · subst h
      simp only [List.flatMap_cons, if_pos rfl, List.cons_append, List.append_assoc]
      unfold csvUnquote
      simp [ih]
    · simp only [List.flatMap_cons, if_neg h, List.cons_append, List.singleton_append]
      unfold csvUnquote
      simp [h, ih]

/-- C9: every idea containing a double quote is serialized by the CSV
export as a quoted field whose embedded double quotes are doubled, and
standard CSV decoding of that row yields the index field and the original
idea string back. -/
theorem csv_roundtrip (idx : Nat) (it : String) (_hq : '"' ∈ it.data) :
    csvRow idx it = Nat.repr idx ++ "," ++ ("\"" ++ escQuotes it ++ "\"") ++ "\n" ∧
      csvDecodeRow (csvRow idx it) = some (Nat.repr idx, it) := by
  have hmk : ∀ s : String, String.mk s.data = s := fun s => rfl
  have hd1 : (",\"" : String).data = [',', '"'] := rfl
  have hd2 : ("\"\n" : String).data = ['"', '\n'] := rfl
  have hd3 : ("," : String).data = [','] := rfl
  have hd4 : ("\"" : String).data = ['"'] := rfl
  have hd5 : ("\n" : String).data = ['\n'] := rfl
  constructor
  · unfold csvRow
    apply String.ext
    simp [hd1, hd2, hd3, hd4, hd5, List.append_assoc]
  · have hcomma : ∀ c ∈ (Nat.repr idx).data, (decide (c ≠ ',')) = true := by
      intro c hc
      have hdig : c.isDigit = true := repr_all_digits idx c hc
      refine decide_eq_true ?_
      intro he
      rw [he] at hdig
      exact absurd hdig (by decide)
    have hdata : (csvRow idx it).data =
        (Nat.repr idx).data ++
          (',' :: '"' :: ((it.data.flatMap fun c => if c = '"' then ['"', '"'] else [c])
            ++ '"' :: '\n' :: [])) := by
      unfold csvRow escQuotes
      simp [hd1, hd2, List.append_assoc]
    simp only [csvDecodeRow, hdata]
    rw [takeWhile_append_all _ _ hcomma, dropWhile_append_all _ _ hcomma]
    simp [List.takeWhile_cons, List.dropWhile_cons, csvUnquote_escQuotes it.data, hmk]

/-- Witness for C9. -/
theorem csv_roundtrip_witness :
    csvDecodeRow (csvRow 1 "say \"hi\"") = some (Nat.repr 1, "say \"hi\"") :=
  (csv_roundtrip 1 "say \"hi\"" (by decide)).2

end AIMiracles
